import Mathlib

/- Shallow embedding of the SAMOS-Influx-Exporter core:
   src/samos_data_builder.py (query construction and record assembly),
   src/samos_fields.py (the SAMOS field table) and the driver logic of
   src/samos_exporter.py.

   Strings are Lean String; Python exceptions are modelled with an explicit
   Except channel; the per-run warning-dedup list (the Python local
   variable errors) is threaded explicitly. -/

/-- Python exceptions relevant to the modelled code paths. -/
inductive PyErr where
  | valueError (msg : String)
  | indexError
deriving DecidableEq

/-- Python list.index(v) as used in samos_data_builder.py via header.index:
some i is the first position of v in xs; none models the ValueError raised
when v is absent. -/
def pyIndex (xs : List String) (v : String) : Option Nat :=
  match xs with
  | [] => none
  | x :: rest => if x = v then some 0 else (pyIndex rest v).map (· + 1)

/-- Python xs[i] for a non-negative index i: none models the IndexError
raised when i is past the end of the list. -/
def pyGet (xs : List String) (i : Nat) : Option String :=
  match xs, i with
  | [], _ => none
  | x :: _, 0 => some x
  | _ :: rest, n + 1 => pyGet rest n

/-- Python sep.join(xs). -/
def pyJoin (sep : String) : List String → String
  | [] => ""
  | [a] => a
  | a :: rest => a ++ sep ++ pyJoin sep rest

/-- Python s.replace(c, "") for a one-character pattern: removes every
occurrence of the character (used with "-" and ":"). -/
def pyStripChar (c : Char) (s : String) : String :=
  ⟨s.data.filter (fun ch => ch ≠ c)⟩

/-- Line 175 of samos_data_builder.py: the YMD tag value is
the row's time string sliced to its first 10 characters with every hyphen
removed. -/
def ymdOf (t : String) : String := pyStripChar '-' ⟨t.data.take 10⟩

/-- Line 176 of samos_data_builder.py: the HMS tag value is
characters 11 to 18 of the row's time string with every colon removed. -/
def hmsOf (t : String) : String := pyStripChar ':' ⟨(t.data.drop 11).take 8⟩

/-- ExportConfig: callsign, measurement names, and the insertion-ordered
fields mapping from output code to source field name (a Python dict keeps
insertion order and has unique keys). -/
structure SamosConfig where
  callsign : String
  measurements : List String
  fields : List (String × String)
deriving DecidableEq

/-- The keys of the SAMOS_FIELDS table (src/samos_fields.py, lines 20-102). -/
def samosFieldCodes : List String :=
  ["AT", "AX", "BC", "BP", "CR", "DP", "FL", "GY", "LA", "LB", "LD", "LO",
   "LT", "LW", "OG", "OS", "OT", "OX", "PH", "PR", "PT", "RH", "RT", "SA",
   "SH", "SL", "SM", "SP", "SR", "ST", "SV", "SW", "TB", "TC", "TI", "TK",
   "TR", "TT", "TW", "VH", "VP", "VR", "VX", "VY", "WD", "WS", "WT", "ZD",
   "HM", "YM", "DT"]

def isUpperAscii (c : Char) : Bool := 'A' ≤ c && c ≤ 'Z'

def isDigitAscii (c : Char) : Bool := '0' ≤ c && c ≤ '9'

/-- Python re.search with pattern caret [A-Z]{2}[0-9]? yields a match exactly
when the first two characters of the string are uppercase ASCII letters: the
optional digit can match the empty string and the pattern has no end anchor,
so nothing past position 2 is constrained. -/
def startsWithTwoUpper (s : String) : Bool :=
  match s.data with
  | c0 :: c1 :: _ => isUpperAscii c0 && isUpperAscii c1
  | _ => false

/-- The warning condition tested by the constructor of SAMOSDataBuilder
(lines 64-71): the first two characters of the key are not a SAMOS_FIELDS
key, or the regular-expression search fails. -/
def codeWarns (field : String) : Bool :=
  !(samosFieldCodes.contains (field.take 2)) || !(startsWithTwoUpper field)

/-- The warnings logged by the constructor, one per offending configured
key, in key order (lines 64-71). -/
def initWarnings (fields : List (String × String)) : List String :=
  (fields.map Prod.fst).filter codeWarns

/-- Modelled from the spec, for comparison with the code's codeWarns: the
spec says recognized means the two-character head of the code is in the
table AND the full code is two uppercase letters optionally followed by one
digit, nothing more. -/
def specRecognized (field : String) : Bool :=
  samosFieldCodes.contains (field.take 2) &&
    (match field.data with
     | [a, b] => isUpperAscii a && isUpperAscii b
     | [a, b, c] => isUpperAscii a && isUpperAscii b && isDigitAscii c
     | _ => false)

/-- One disjunct of the measurement filter (line 110). -/
def measClause (m : String) : String := "r[\"_measurement\"] == \"" ++ m ++ "\""

/-- One disjunct of the field filter (line 118). -/
def fieldClause (f : String) : String := "r[\"_field\"] == \"" ++ f ++ "\""

/-- SAMOSDataBuilder build query, lines 105-124: pure string assembly; the
range part is passed in as the string produced by the range helper. Nothing
in the try body can raise, so the function is total. -/
def buildQuery (bucket rangeStr : String) (ms fs : List String) : String :=
  "from(bucket: \"" ++ bucket ++ "\")\n" ++
  "|> range(" ++ rangeStr ++ ")\n" ++
  "|> filter(fn: (r) => " ++ pyJoin " or " (ms.map measClause) ++ ")\n" ++
  "|> filter(fn: (r) => " ++ pyJoin " or " (fs.map fieldClause) ++ ")\n" ++
  "|> keep(columns: [\"_time\", \"_field\", \"_value\"])" ++
  "|> pivot(rowKey:[\"_time\"], columnKey: [\"_field\"], valueColumn: \"_value\")"

/-- The same construction with its exception channel made explicit: the
try block of lines 104-130 can only re-raise an exception coming from its
own body, and the body (string formatting and joins) is total, so the
result is always ok. -/
def buildQueryE (bucket rangeStr : String) (ms fs : List String) :
    Except PyErr String :=
  .ok (buildQuery bucket rangeStr ms fs)

/-- A timezone-naive datetime as consumed by the range helper: CPython
represents the date by its proleptic Gregorian ordinal (toordinal) plus the
time of day, and implements timedelta addition on that ordinal. -/
structure PyDatetime where
  ordinal : Nat
  microsInDay : Nat
deriving DecidableEq

/-- A UTC instant denoted by a formatted timestamp string. -/
structure Instant where
  ordinal : Nat
  microsInDay : Nat
deriving DecidableEq

/-- Line 81: replacing tzinfo with UTC keeps every date and time field. -/
def pyReplaceTzUtc (d : PyDatetime) : PyDatetime := d

/-- Line 82: adding timedelta(days=1) advances the ordinal by one. -/
def addOneDay (d : PyDatetime) : PyDatetime := ⟨d.ordinal + 1, d.microsInDay⟩

/-- Lines 84-85: the strftime format hardcodes the time portion to
00:00:00.000, so the denoted instant is the value's calendar date at
midnight UTC, independent of the value's time of day. -/
def strftimeDayStart (d : PyDatetime) : Instant := ⟨d.ordinal, 0⟩

/-- The pair of instants denoted by the two formatted bounds built by the
range helper (lines 80-86) on a valid datetime input. -/
def buildRangeInstants (ts : PyDatetime) : Instant × Instant :=
  (strftimeDayStart (pyReplaceTzUtc ts),
   strftimeDayStart (addOneDay (pyReplaceTzUtc ts)))

/-- Microseconds since the epoch of day zero. -/
def instantMicros (i : Instant) : Nat := i.ordinal * 86400000000 + i.microsInDay

/-- The argument passed to the range helper: either a datetime, or a value
on which the tzinfo replacement (or formatting) raises; the second
constructor carries the exception text. -/
inductive TsValue where
  | dt (d : PyDatetime)
  | invalidTs (excMsg : String)
deriving DecidableEq

/-- The range helper with its exception channel explicit (lines 80-91): the
whole body sits in a try block whose handler logs the message at debug
level and falls through to return None. The first component is the Python
return value, the second the debug message; the outer Except never carries
an error because every exception is caught inside. -/
def buildQueryRangeChecked (ts : TsValue) :
    Except PyErr (Option (Instant × Instant) × Option String) :=
  match ts with
  | .dt d => .ok (some (buildRangeInstants d), none)
  | .invalidTs m => .ok (none, some m)

/-- The text of str(err) for the ValueError raised by header.index(val)
when val is absent from the header; x27 is the apostrophe CPython's repr
puts around the value. -/
def valueErrMsg (v : String) : String := "\x27" ++ v ++ "\x27 is not in list"

/-- The token contributed by one configured (key, val) pair for one row
(lines 178-185): key followed by NaN when val is not in the header, and the
raw stored text otherwise (the default is never used when the index is in
range). -/
def rowFieldToken (header row : List String) (kv : String × String) : String :=
  match pyIndex header kv.2 with
  | none => kv.1 ++ ":NaN"
  | some i => kv.1 ++ ":" ++ (pyGet row i).getD ""

/-- True when the pair cannot hit the uncaught IndexError on this row:
either its source field is absent from the header, or its header position
is within the row. -/
def fieldInRange (header row : List String) (kv : String × String) : Bool :=
  match pyIndex header kv.2 with
  | none => true
  | some i => i < row.length

/-- The per-row field loop (lines 178-185), threading the run-level errors
dedup list: the result is (tokens, errors afterwards, messages newly logged
by this row). The ValueError from header.index is caught and replaced by a
NaN token, logging the message only when it is not already in errors; the
IndexError from indexing the row is not caught and aborts the loop. -/
def processFields (header row : List String) :
    List (String × String) → List String →
    Except PyErr (List String × List String × List String)
  | [], errors => .ok ([], errors, [])
  | (k, v) :: rest, errors =>
    match pyIndex header v with
    | some i =>
      match pyGet row i with
      | some raw =>
        match processFields header row rest errors with
        | .error e => .error e
        | .ok (toks, es, ws) => .ok ((k ++ ":" ++ raw) :: toks, es, ws)
      | none => .error .indexError
    | none =>
      if valueErrMsg v ∈ errors then
        match processFields header row rest errors with
        | .error e => .error e
        | .ok (toks, es, ws) => .ok ((k ++ ":NaN") :: toks, es, ws)
      else
        match processFields header row rest (errors ++ [valueErrMsg v]) with
        | .error e => .error e
        | .ok (toks, es, ws) =>
          .ok ((k ++ ":NaN") :: toks, es, valueErrMsg v :: ws)

/-- One iteration of the row loop (lines 170-187): an empty csv line yields
nothing; otherwise the columns list is assembled, starting with the literal
record tag, the callsign tag and the two time tags, then the field tokens,
and one joined line is yielded. Uncaught exceptions surface in the Except
channel. -/
def buildRow (cfg : SamosConfig) (header row : List String)
    (errors : List String) :
    Except PyErr (Option (List String) × List String × List String) :=
  if row = [] then .ok (none, errors, [])
  else
    match pyIndex header "_time" with
    | none => .error (.valueError (valueErrMsg "_time"))
    | some j =>
      match pyGet row j with
      | none => .error .indexError
      | some t =>
        match processFields header row cfg.fields errors with
        | .error e => .error e
        | .ok (toks, es, ws) =>
          .ok (some ("$SAMOS:001" :: ("CS:" ++ cfg.callsign) ::
            ("YMD:" ++ ymdOf t) :: ("HMS:" ++ hmsOf t) :: toks), es, ws)

/-- The observable outcome of iterating the generator: records holds the
columns lists of the yielded lines in order, warnings the missing-field
messages logged during the run, err the uncaught exception (if any) that
ended the iteration early. -/
structure RunOutput where
  records : List (List String)
  warnings : List String
  err : Option PyErr
deriving DecidableEq

/-- The data-row loop of lines 169-187 over the remaining csv lines. -/
def runRows (cfg : SamosConfig) (header : List String) :
    List (List String) → List String → RunOutput
  | [], _ => ⟨[], [], none⟩
  | row :: rest, errors =>
    match buildRow cfg header row errors with
    | .error e => ⟨[], [], some e⟩
    | .ok (lineOpt, es, ws) =>
      let r := runRows cfg header rest es
      ⟨lineOpt.toList ++ r.records, ws ++ r.warnings, r.err⟩

/-- build samos csv on a csv stream: the first stream element is the header
row (line 165; when the stream is empty the StopIteration is swallowed and
the row loop never runs its body), the rest are data rows, and the errors
dedup list starts empty (line 169). -/
def buildSamosCsv (cfg : SamosConfig) (stream : List (List String)) :
    RunOutput :=
  match stream with
  | [] => ⟨[], [], none⟩
  | header :: rows => runRows cfg header rows []

/-- The strings actually yielded: each columns list joined with commas and
terminated by a newline (line 187). -/
def emittedLines (cfg : SamosConfig) (stream : List (List String)) :
    List String :=
  (buildSamosCsv cfg stream).records.map (fun cols => pyJoin "," cols ++ "\n")

/-- The peek logic of the samos_exporter.py main block (lines 169-196): an
empty output stream logs the no-data notice and exits with status 0;
otherwise the lines are written to the chosen sink. -/
inductive ExporterOutcome where
  | noDataQuit
  | exported (lines : List String)
deriving DecidableEq

def exporterMain (output : List String) : ExporterOutcome :=
  match output with
  | [] => .noDataQuit
  | l :: rest => .exported (l :: rest)

def exporterExitCode : ExporterOutcome → Nat
  | .noDataQuit => 0
  | .exported _ => 0

/-- The exit status used when retrieval fails (samos_data_builder.py line
146). -/
def fatalRetrieveExitCode : Nat := 1

/-- The example configuration of the spec's end-to-end test. -/
def cfgEx : SamosConfig := ⟨"KAOU", ["met"], [("AT", "Temp"), ("BP", "Pressure")]⟩

/-- A pivoted result header with both configured fields present. -/
def headerEx : List String := ["_time", "Temp", "Pressure"]

/-- One pivoted data row matching the spec's end-to-end test. -/
def rowEx : List String := ["2003-09-07T00:00:11Z", "17.40", "1010.27"]

def streamEx : List (List String) := [headerEx, rowEx]

/-- The record the end-to-end example should produce, as a columns list. -/
def recEx : List String :=
  ["$SAMOS:001", "CS:KAOU", "YMD:20030907", "HMS:000011", "AT:17.40",
   "BP:1010.27"]

/-- The record the end-to-end example should produce, as the yielded line. -/
def lineEx : String :=
  "$SAMOS:001,CS:KAOU,YMD:20030907,HMS:000011,AT:17.40,BP:1010.27\n"

/-- A result header lacking the configured Pressure field. -/
def headerMiss : List String := ["_time", "Temp"]

/-- A data row for the header lacking Pressure. -/
def rowMiss : List String := ["2003-09-07T00:00:11Z", "17.40"]

/-- Several identical data rows, for the warning dedup witness. -/
def rowsMiss : List (List String) := List.replicate 5 rowMiss

/-- A configuration with a single field, for the short-row witness. -/
def cfgShort : SamosConfig := ⟨"KAOU", ["met"], [("AT", "Temp")]⟩

/-- A data row shorter than the header position of its configured field. -/
def rowShort : List String := ["2003-09-07T00:00:11Z"]

/- ------------------------------------------------------------------ -/
/- Helper lemmas                                                       -/
/- ------------------------------------------------------------------ -/

theorem string_eq_of_data {a b : String} (h : a.data = b.data) : a = b := by
  cases a
  cases b
  exact congrArg String.mk h

theorem data_append_eq (a b : String) : (a ++ b).data = a.data ++ b.data := by
  cases a
  cases b
  rfl

theorem str_append_assoc (a b c : String) : a ++ b ++ c = a ++ (b ++ c) :=
  string_eq_of_data (by simp [data_append_eq])

theorem str_append_empty (a : String) : a ++ "" = a :=
  string_eq_of_data (by rw [data_append_eq]; exact List.append_nil _)

theorem pyJoin_cons (sep a : String) (l : List String) :
    ∃ r, pyJoin sep (a :: l) = a ++ r := by
  cases l with
  | nil => exact ⟨"", by rw [str_append_empty]; simp [pyJoin]⟩
  | cons b t =>
    refine ⟨sep ++ pyJoin sep (b :: t), ?_⟩
    simp only [pyJoin]
    rw [str_append_assoc]

theorem pyGet_some_of_lt :
    ∀ (xs : List String) (i : Nat), i < xs.length →
      ∃ raw, pyGet xs i = some raw := by
  intro xs
  induction xs with
  | nil => intro i h; simp at h
  | cons x rest ih =>
    intro i h
    cases i with
    | zero => exact ⟨x, rfl⟩
    | succ n => exact ih n (by simpa using h)

theorem pyGet_none_of_le :
    ∀ (xs : List String) (i : Nat), xs.length ≤ i →
      pyGet xs i = none := by
  intro xs
  induction xs with
  | nil => intro i _; rfl
  | cons x rest ih =>
    intro i h
    cases i with
    | zero => simp at h
    | succ n => exact ih n (by simpa using h)

theorem processFields_errors_eq (header row : List String) :
    ∀ (fs : List (String × String)) (errors toks es ws : List String),
      processFields header row fs errors = .ok (toks, es, ws) →
      es = errors ++ ws := by
  intro fs
  induction fs with
  | nil =>
    intro errors toks es ws h
    simp only [processFields, Except.ok.injEq, Prod.mk.injEq] at h
    obtain ⟨-, h2, h3⟩ := h
    subst h2
    subst h3
    simp
  | cons kv rest ih =>
    intro errors toks es ws h
    obtain ⟨k, v⟩ := kv
    simp only [processFields] at h
    cases hpi : pyIndex header v with
    | some i =>
      simp only [hpi] at h
      cases hg : pyGet row i with
      | some raw =>
        simp only [hg] at h
        cases hrec : processFields header row rest errors with
        | error e => simp [hrec] at h
        | ok triple =>
          obtain ⟨toks', es', ws'⟩ := triple
          simp only [hrec, Except.ok.injEq, Prod.mk.injEq] at h
          obtain ⟨-, h2, h3⟩ := h
          subst h2
          subst h3
          exact ih _ _ _ _ hrec
      | none => simp [hg] at h
    | none =>
      simp only [hpi] at h
      by_cases hm : valueErrMsg v ∈ errors
      · rw [if_pos hm] at h
        cases hrec : processFields header row rest errors with
        | error e => simp [hrec] at h
        | ok triple =>
          obtain ⟨toks', es', ws'⟩ := triple
          simp only [hrec, Except.ok.injEq, Prod.mk.injEq] at h
          obtain ⟨-, h2, h3⟩ := h
          subst h2
          subst h3
          exact ih _ _ _ _ hrec
      · rw [if_neg hm] at h
        cases hrec : processFields header row rest (errors ++ [valueErrMsg v]) with
        | error e => simp [hrec] at h
        | ok triple =>
          obtain ⟨toks', es', ws'⟩ := triple
          simp only [hrec, Except.ok.injEq, Prod.mk.injEq] at h
          obtain ⟨-, h2, h3⟩ := h
          subst h2
          subst h3
          have hes := ih _ _ _ _ hrec
          rw [hes]
          simp

theorem processFields_warn_fresh (header row : List String) :
    ∀ (fs : List (String × String)) (errors toks es ws : List String),
      processFields header row fs errors = .ok (toks, es, ws) →
      (∀ m ∈ errors, m ∉ ws) ∧ ws.Nodup := by
  intro fs
  induction fs with
  | nil =>
    intro errors toks es ws h
    simp only [processFields, Except.ok.injEq, Prod.mk.injEq] at h
    obtain ⟨-, -, h3⟩ := h
    subst h3
    exact ⟨by simp, List.nodup_nil⟩
  | cons kv rest ih =>
    intro errors toks es ws h
    obtain ⟨k, v⟩ := kv
    simp only [processFields] at h
    cases hpi : pyIndex header v with
    | some i =>
      simp only [hpi] at h
      cases hg : pyGet row i with
      | some raw =>
        simp only [hg] at h
        cases hrec : processFields header row rest errors with
        | error e => simp [hrec] at h
        | ok triple =>
          obtain ⟨toks', es', ws'⟩ := triple
          simp only [hrec, Except.ok.injEq, Prod.mk.injEq] at h
          obtain ⟨-, -, h3⟩ := h
          subst h3
          exact ih _ _ _ _ hrec
      | none => simp [hg] at h
    | none =>
      simp only [hpi] at h
      by_cases hm : valueErrMsg v ∈ errors
      · rw [if_pos hm] at h
        cases hrec : processFields header row rest errors with
        | error e => simp [hrec] at h
        | ok triple =>
          obtain ⟨toks', es', ws'⟩ := triple
          simp only [hrec, Except.ok.injEq, Prod.mk.injEq] at h
          obtain ⟨-, -, h3⟩ := h
          subst h3
          exact ih _ _ _ _ hrec
      · rw [if_neg hm] at h
        cases hrec : processFields header row rest (errors ++ [valueErrMsg v]) with
        | error e => simp [hrec] at h
        | ok triple =>
          obtain ⟨toks', es', ws'⟩ := triple
          simp only [hrec, Except.ok.injEq, Prod.mk.injEq] at h
          obtain ⟨-, -, h3⟩ := h
          subst h3
          obtain ⟨hfresh, hnd⟩ := ih _ _ _ _ hrec
          constructor
          · intro m hmem
            have hne : m ≠ valueErrMsg v := fun he => hm (he ▸ hmem)
            have hnw : m ∉ ws' := hfresh m (List.mem_append_left _ hmem)
            simp [List.mem_cons, hne, hnw]
          · refine List.nodup_cons.mpr ⟨?_, hnd⟩
            exact hfresh _ (List.mem_append_right _ (List.mem_singleton_self _))

theorem processFields_missing_mem (header row : List String) (k v : String)
    (hmiss : pyIndex header v = none) :
    ∀ (fs : List (String × String)) (errors toks es ws : List String),
      (k, v) ∈ fs →
      processFields header row fs errors = .ok (toks, es, ws) →
      (k ++ ":NaN") ∈ toks ∧ valueErrMsg v ∈ es := by
  intro fs
  induction fs with
  | nil =>
    intro errors toks es ws hmem _
    simp at hmem
  | cons kv rest ih =>
    intro errors toks es ws hmem h
    obtain ⟨k', v'⟩ := kv
    simp only [processFields] at h
    rcases List.mem_cons.mp hmem with heq | htail
    · injection heq with hk hv
      subst hk
      subst hv
      simp only [hmiss] at h
      by_cases hm : valueErrMsg v ∈ errors
      · rw [if_pos hm] at h
        cases hrec : processFields header row rest errors with
        | error e => simp [hrec] at h
        | ok triple =>
          obtain ⟨toks', es', ws'⟩ := triple
          simp only [hrec, Except.ok.injEq, Prod.mk.injEq] at h
          obtain ⟨h1, h2, -⟩ := h
          subst h1
          subst h2
          refine ⟨List.mem_cons_self _ _, ?_⟩
          have hes := processFields_errors_eq header row _ _ _ _ _ hrec
          rw [hes]
          exact List.mem_append_left _ hm
      · rw [if_neg hm] at h
        cases hrec : processFields header row rest (errors ++ [valueErrMsg v]) with
        | error e => simp [hrec] at h
        | ok triple =>
          obtain ⟨toks', es', ws'⟩ := triple
          simp only [hrec, Except.ok.injEq, Prod.mk.injEq] at h
          obtain ⟨h1, h2, -⟩ := h
          subst h1
          subst h2
          refine ⟨List.mem_cons_self _ _, ?_⟩
          have hes := processFields_errors_eq header row _ _ _ _ _ hrec
          rw [hes]
          exact List.mem_append_left _
            (List.mem_append_right _ (List.mem_singleton_self _))
    · cases hpi : pyIndex header v' with
      | some i =>
        simp only [hpi] at h
        cases hg : pyGet row i with
        | some raw =>
          simp only [hg] at h
          cases hrec : processFields header row rest errors with
          | error e => simp [hrec] at h
          | ok triple =>
            obtain ⟨toks', es', ws'⟩ := triple
            simp only [hrec, Except.ok.injEq, Prod.mk.injEq] at h
            obtain ⟨h1, h2, -⟩ := h
            subst h1
            subst h2
            obtain ⟨ht, he⟩ := ih _ _ _ _ htail hrec
            exact ⟨List.mem_cons_of_mem _ ht, he⟩
        | none => simp [hg] at h
      | none =>
        simp only [hpi] at h
        by_cases hm : valueErrMsg v' ∈ errors
        · rw [if_pos hm] at h
          cases hrec : processFields header row rest errors with
          | error e => simp [hrec] at h
          | ok triple =>
            obtain ⟨toks', es', ws'⟩ := triple
            simp only [hrec, Except.ok.injEq, Prod.mk.injEq] at h
            obtain ⟨h1, h2, -⟩ := h
            subst h1
            subst h2
            obtain ⟨ht, he⟩ := ih _ _ _ _ htail hrec
            exact ⟨List.mem_cons_of_mem _ ht, he⟩
        · rw [if_neg hm] at h
          cases hrec : processFields header row rest (errors ++ [valueErrMsg v']) with
          | error e => simp [hrec] at h
          | ok triple =>
            obtain ⟨toks', es', ws'⟩ := triple
            simp only [hrec, Except.ok.injEq, Prod.mk.injEq] at h
            obtain ⟨h1, h2, -⟩ := h
            subst h1
            subst h2
            obtain ⟨ht, he⟩ := ih _ _ _ _ htail hrec
            exact ⟨List.mem_cons_of_mem _ ht, he⟩

theorem processFields_total (header row : List String) :
    ∀ (fs : List (String × String)) (errors : List String),
      (∀ kv ∈ fs, fieldInRange header row kv = true) →
      ∃ es ws, processFields header row fs errors =
        .ok (fs.map (rowFieldToken header row), es, ws) := by
  intro fs
  induction fs with
  | nil => intro errors _; exact ⟨errors, [], rfl⟩
  | cons kv rest ih =>
    intro errors hall
    obtain ⟨k, v⟩ := kv
    have hkv := hall (k, v) (List.mem_cons_self _ _)
    have hrest : ∀ kv ∈ rest, fieldInRange header row kv = true :=
      fun kv hm => hall kv (List.mem_cons_of_mem _ hm)
    cases hpi : pyIndex header v with
    | some i =>
      have hlt : i < row.length := by
        simp only [fieldInRange, hpi] at hkv
        exact of_decide_eq_true hkv
      obtain ⟨raw, hg⟩ := pyGet_some_of_lt row i hlt
      obtain ⟨es, ws, hrec⟩ := ih errors hrest
      refine ⟨es, ws, ?_⟩
      simp only [processFields, hpi, hg, hrec, List.map_cons]
      simp [rowFieldToken, hpi, hg]
    | none =>
      by_cases hm : valueErrMsg v ∈ errors
      · obtain ⟨es, ws, hrec⟩ := ih errors hrest
        refine ⟨es, ws, ?_⟩
        simp only [processFields, hpi, if_pos hm, hrec, List.map_cons]
        simp [rowFieldToken, hpi]
      · obtain ⟨es, ws, hrec⟩ := ih (errors ++ [valueErrMsg v]) hrest
        refine ⟨es, valueErrMsg v :: ws, ?_⟩
        simp only [processFields, hpi, if_neg hm, hrec, List.map_cons]
        simp [rowFieldToken, hpi]

theorem processFields_index_error (header row : List String) :
    ∀ (fs : List (String × String)) (errors : List String),
      (∃ kv ∈ fs, ∃ i, pyIndex header kv.2 = some i ∧ pyGet row i = none) →
      processFields header row fs errors = .error .indexError := by
  intro fs
  induction fs with
  | nil =>
    intro errors h
    obtain ⟨kv, hm, -⟩ := h
    simp at hm
  | cons kv0 rest ih =>
    intro errors h
    obtain ⟨k', v'⟩ := kv0
    obtain ⟨kv, hm, i, hpi, hg⟩ := h
    rcases List.mem_cons.mp hm with heq | htail
    · rw [heq] at hpi
      simp only at hpi
      simp [processFields, hpi, hg]
    · cases hpi' : pyIndex header v' with
      | some i' =>
        cases hg' : pyGet row i' with
        | some raw =>
          have hrec := ih errors ⟨kv, htail, i, hpi, hg⟩
          simp [processFields, hpi', hg', hrec]
        | none => simp [processFields, hpi', hg']
      | none =>
        have hrec1 := ih errors ⟨kv, htail, i, hpi, hg⟩
        have hrec2 := ih (errors ++ [valueErrMsg v']) ⟨kv, htail, i, hpi, hg⟩
        by_cases hmem : valueErrMsg v' ∈ errors
        · simp [processFields, hpi', if_pos hmem, hrec1]
        · simp [processFields, hpi', if_neg hmem, hrec2]

theorem buildRow_eq_ok (cfg : SamosConfig) (header row : List String)
    (errors : List String) (j : Nat) (t : String) (toks es ws : List String)
    (hne : row ≠ []) (ht : pyIndex header "_time" = some j)
    (htv : pyGet row j = some t)
    (hpf : processFields header row cfg.fields errors = .ok (toks, es, ws)) :
    buildRow cfg header row errors =
      .ok (some ("$SAMOS:001" :: ("CS:" ++ cfg.callsign) ::
        ("YMD:" ++ ymdOf t) :: ("HMS:" ++ hmsOf t) :: toks), es, ws) := by
  simp [buildRow, hne, ht, htv, hpf]

theorem buildRow_eq_error (cfg : SamosConfig) (header row : List String)
    (errors : List String) (j : Nat) (t : String) (e : PyErr)
    (hne : row ≠ []) (ht : pyIndex header "_time" = some j)
    (htv : pyGet row j = some t)
    (hpf : processFields header row cfg.fields errors = .error e) :
    buildRow cfg header row errors = .error e := by
  simp [buildRow, hne, ht, htv, hpf]

theorem buildRow_ok_inv (cfg : SamosConfig) (header row : List String)
    (errors : List String) (lineOpt : Option (List String))
    (es ws : List String) (hne : row ≠ [])
    (h : buildRow cfg header row errors = .ok (lineOpt, es, ws)) :
    ∃ j t toks, pyIndex header "_time" = some j ∧ pyGet row j = some t ∧
      processFields header row cfg.fields errors = .ok (toks, es, ws) ∧
      lineOpt = some ("$SAMOS:001" :: ("CS:" ++ cfg.callsign) ::
        ("YMD:" ++ ymdOf t) :: ("HMS:" ++ hmsOf t) :: toks) := by
  unfold buildRow at h
  rw [if_neg hne] at h
  cases hpi : pyIndex header "_time" with
  | none => simp [hpi] at h
  | some j =>
    simp only [hpi] at h
    cases hg : pyGet row j with
    | none => simp [hg] at h
    | some t =>
      simp only [hg] at h
      cases hpf : processFields header row cfg.fields errors with
      | error e => simp [hpf] at h
      | ok triple =>
        obtain ⟨toks, es', ws'⟩ := triple
        simp only [hpf, Except.ok.injEq, Prod.mk.injEq] at h
        obtain ⟨h1, h2, h3⟩ := h
        subst h2
        subst h3
        exact ⟨j, t, toks, rfl, hg, rfl, h1.symm⟩

theorem runRows_records_shape (cfg : SamosConfig) (header : List String) :
    ∀ (rows : List (List String)) (errors : List String)
      (rec : List String),
      rec ∈ (runRows cfg header rows errors).records →
      ∃ tl, rec = "$SAMOS:001" :: tl := by
  intro rows
  induction rows with
  | nil =>
    intro errors rec h
    simp [runRows] at h
  | cons row rest ih =>
    intro errors rec h
    cases hbr : buildRow cfg header row errors with
    | error e => simp [runRows, hbr] at h
    | ok triple =>
      obtain ⟨lineOpt, es, ws⟩ := triple
      simp only [runRows, hbr] at h
      rw [List.mem_append] at h
      rcases h with hleft | hright
      · by_cases hrow : row = []
        · have hnil : buildRow cfg header row errors = .ok (none, errors, []) := by
            rw [hrow]
            simp [buildRow]
          rw [hnil] at hbr
          cases hbr
          simp at hleft
        · obtain ⟨j, t, toks, -, -, -, hline⟩ :=
            buildRow_ok_inv cfg header row errors lineOpt es ws hrow hbr
          rw [hline] at hleft
          simp only [Option.toList_some, List.mem_singleton] at hleft
          exact ⟨_, hleft⟩
      · exact ih es rec hright

theorem runRows_err_none_inv (cfg : SamosConfig) (header : List String)
    (row : List String) (rest : List (List String)) (errors : List String)
    (hok : (runRows cfg header (row :: rest) errors).err = none) :
    ∃ lineOpt es ws, buildRow cfg header row errors = .ok (lineOpt, es, ws) ∧
      (runRows cfg header rest es).err = none := by
  cases hbr : buildRow cfg header row errors with
  | error e => simp [runRows, hbr] at hok
  | ok triple =>
    obtain ⟨lineOpt, es, ws⟩ := triple
    simp only [runRows, hbr] at hok
    exact ⟨lineOpt, es, ws, rfl, hok⟩

theorem runRows_missing_all (cfg : SamosConfig) (header : List String)
    (k v : String) (hkv : (k, v) ∈ cfg.fields)
    (hmiss : pyIndex header v = none) :
    ∀ (rows : List (List String)) (errors : List String),
      (∀ r ∈ rows, r ≠ []) →
      (runRows cfg header rows errors).err = none →
      ((runRows cfg header rows errors).warnings.count (valueErrMsg v) =
        if valueErrMsg v ∈ errors then 0 else if rows = [] then 0 else 1) ∧
      (runRows cfg header rows errors).records.length = rows.length ∧
      ∀ rec ∈ (runRows cfg header rows errors).records, (k ++ ":NaN") ∈ rec := by
  intro rows
  induction rows with
  | nil =>
    intro errors _ _
    refine ⟨?_, by simp [runRows], by simp [runRows]⟩
    simp [runRows]
  | cons row rest ih =>
    intro errors hall hok
    obtain ⟨lineOpt, es, ws, hbr, hokrest⟩ :=
      runRows_err_none_inv cfg header row rest errors hok
    have hrow : row ≠ [] := hall row (List.mem_cons_self _ _)
    obtain ⟨j, t, toks, ht, htv, hpf, hline⟩ :=
      buildRow_ok_inv cfg header row errors lineOpt es ws hrow hbr
    have hstruct := processFields_errors_eq header row _ _ _ _ _ hpf
    have hfresh := processFields_warn_fresh header row _ _ _ _ _ hpf
    have hmem := processFields_missing_mem header row k v hmiss _ _ _ _ _ hkv hpf
    have hmes : valueErrMsg v ∈ es := hmem.2
    obtain ⟨ihc, ihl, ihr⟩ :=
      ih es (fun r hr => hall r (List.mem_cons_of_mem _ hr)) hokrest
    rw [if_pos hmes] at ihc
    refine ⟨?_, ?_, ?_⟩
    · simp only [runRows, hbr, List.count_append]
      by_cases hm : valueErrMsg v ∈ errors
      · rw [if_pos hm]
        have hnw : valueErrMsg v ∉ ws := hfresh.1 _ hm
        rw [List.count_eq_zero_of_not_mem hnw, ihc]
      · rw [if_neg hm, if_neg (List.cons_ne_nil row rest)]
        have hmw : valueErrMsg v ∈ ws := by
          rcases List.mem_append.mp (hstruct ▸ hmes) with h | h
          · exact absurd h hm
          · exact h
        rw [List.count_eq_one_of_mem hfresh.2 hmw, ihc]
    · simp only [runRows, hbr, List.length_append, hline, Option.toList_some,
        List.length_singleton, List.length_cons, List.length_nil, ihl]
      omega
    · intro rec hrec
      simp only [runRows, hbr] at hrec
      rw [List.mem_append] at hrec
      rcases hrec with hl | hr
      · rw [hline] at hl
        simp only [Option.toList_some, List.mem_singleton] at hl
        subst hl
        simp only [List.mem_cons]
        exact Or.inr (Or.inr (Or.inr (Or.inr hmem.1)))
      · exact ihr rec hr

/- ------------------------------------------------------------------ -/
/- Claim theorems                                                      -/
/- ------------------------------------------------------------------ -/

/-- Claim C1: for every config and every non-empty data row whose time
column holds a timestamp, the generator emits exactly one newline-terminated
line whose comma-joined tokens are the record tag, the callsign tag, the
YMD tag (first 10 characters of the timestamp with hyphens removed), the
HMS tag (characters 11 to 18 with colons removed), followed by one token
per configured field pair in insertion order. -/
theorem build_samos_csv_single_row_format (cfg : SamosConfig)
    (header row : List String) (j : Nat) (t : String)
    (hne : row ≠ []) (ht : pyIndex header "_time" = some j)
    (htv : pyGet row j = some t)
    (hin : ∀ kv ∈ cfg.fields, fieldInRange header row kv = true) :
    ∃ ws,
      buildSamosCsv cfg [header, row] =
        ⟨["$SAMOS:001" :: ("CS:" ++ cfg.callsign) :: ("YMD:" ++ ymdOf t) ::
            ("HMS:" ++ hmsOf t) :: cfg.fields.map (rowFieldToken header row)],
          ws, none⟩ ∧
      emittedLines cfg [header, row] =
        [pyJoin "," ("$SAMOS:001" :: ("CS:" ++ cfg.callsign) ::
          ("YMD:" ++ ymdOf t) :: ("HMS:" ++ hmsOf t) ::
          cfg.fields.map (rowFieldToken header row)) ++ "\n"] := by
  obtain ⟨es, ws, hpf⟩ := processFields_total header row cfg.fields [] hin
  have hbr := buildRow_eq_ok cfg header row [] j t _ es ws hne ht htv hpf
  refine ⟨ws, ?_, ?_⟩
  · show runRows cfg header [row] [] = _
    simp [runRows, hbr]
  · simp [emittedLines, buildSamosCsv, runRows, hbr]

/-- Witness for C1: the spec's end-to-end example evaluates to the expected
line. -/
theorem build_samos_csv_single_row_format_witness :
    (rowEx ≠ [] ∧ pyIndex headerEx "_time" = some 0 ∧
      pyGet rowEx 0 = some "2003-09-07T00:00:11Z" ∧
      (∀ kv ∈ cfgEx.fields, fieldInRange headerEx rowEx kv = true)) ∧
    emittedLines cfgEx [headerEx, rowEx] = [lineEx] := by
  obtain ⟨ws, h1, h2⟩ := build_samos_csv_single_row_format cfgEx headerEx rowEx
    0 "2003-09-07T00:00:11Z" (by decide) (by decide) (by decide) (by decide)
  exact ⟨⟨by decide, by decide, by decide, by decide⟩, h2.trans (by decide)⟩

/-- Claim C2: for a config with a non-empty fields mapping, the emitted
record carries exactly one value token per configured pair, regardless of
how many configured source fields are absent from the result header: an
absent field contributes its NaN token, a present one the raw stored text
unchanged. -/
theorem build_samos_csv_token_count (cfg : SamosConfig)
    (header row : List String) (errors : List String) (j : Nat) (t : String)
    (hfne : cfg.fields ≠ []) (hne : row ≠ [])
    (ht : pyIndex header "_time" = some j) (htv : pyGet row j = some t)
    (hin : ∀ kv ∈ cfg.fields, fieldInRange header row kv = true) :
    (∃ cols es ws, buildRow cfg header row errors = .ok (some cols, es, ws) ∧
      cols.drop 4 = cfg.fields.map (rowFieldToken header row) ∧
      (cols.drop 4).length = cfg.fields.length) ∧
    (∀ kv ∈ cfg.fields, pyIndex header kv.2 = none →
      rowFieldToken header row kv = kv.1 ++ ":NaN") ∧
    (∀ kv ∈ cfg.fields, ∀ i raw, pyIndex header kv.2 = some i →
      pyGet row i = some raw →
      rowFieldToken header row kv = kv.1 ++ ":" ++ raw) := by
  refine ⟨?_, ?_, ?_⟩
  · obtain ⟨es, ws, hpf⟩ := processFields_total header row cfg.fields errors hin
    refine ⟨_, es, ws,
      buildRow_eq_ok cfg header row errors j t _ es ws hne ht htv hpf, ?_, ?_⟩
    · simp
    · simp
  · intro kv _ hnone
    simp [rowFieldToken, hnone]
  · intro kv _ i raw hi hg
    simp [rowFieldToken, hi, hg]

/-- Witness for C2: one present field and one field absent from the header
still produce two value tokens, the second being the NaN substitution. -/
theorem build_samos_csv_token_count_witness :
    (cfgEx.fields ≠ [] ∧ rowMiss ≠ [] ∧
      pyIndex headerMiss "_time" = some 0 ∧
      pyGet rowMiss 0 = some "2003-09-07T00:00:11Z" ∧
      (∀ kv ∈ cfgEx.fields, fieldInRange headerMiss rowMiss kv = true)) ∧
    (∃ cols es ws,
      buildRow cfgEx headerMiss rowMiss [] = .ok (some cols, es, ws) ∧
      cols.drop 4 = cfgEx.fields.map (rowFieldToken headerMiss rowMiss) ∧
      (cols.drop 4).length = cfgEx.fields.length) := by
  have h := build_samos_csv_token_count cfgEx headerMiss rowMiss []
    0 "2003-09-07T00:00:11Z" (by decide) (by decide) (by decide) (by decide)
    (by decide)
  exact ⟨⟨by decide, by decide, by decide, by decide, by decide⟩, h.1⟩

/-- Claim C3: on every valid datetime input the query range spans exactly
24 hours, and its start instant is the input's calendar date at midnight
UTC (zero sub-day components). -/
theorem build_query_range_24h (d : PyDatetime) :
    instantMicros (buildRangeInstants d).2 -
        instantMicros (buildRangeInstants d).1 = 86400000000 ∧
    instantMicros (buildRangeInstants d).2 =
      instantMicros (buildRangeInstants d).1 + 86400000000 ∧
    (buildRangeInstants d).1.microsInDay = 0 ∧
    (buildRangeInstants d).1.ordinal = d.ordinal := by
  refine ⟨?_, ?_, rfl, rfl⟩ <;>
    simp only [buildRangeInstants, strftimeDayStart, addOneDay, pyReplaceTzUtc,
      instantMicros] <;>
    omega

/-- Counterexample for C4: with an empty measurements list the query
construction returns normally (result is ok, no exception of any kind) and
the produced query string contains the empty OR clause. -/
theorem build_query_empty_measurements_cex :
    buildQueryE "openrvdas" "start: S, stop: E" [] ["Temp"] =
      .ok ("from(bucket: \"openrvdas\")\n|> range(start: S, stop: E)\n|> filter(fn: (r) => )\n|> filter(fn: (r) => r[\"_field\"] == \"Temp\")\n|> keep(columns: [\"_time\", \"_field\", \"_value\"])|> pivot(rowKey:[\"_time\"], columnKey: [\"_field\"], valueColumn: \"_value\")") := by
  simp [buildQueryE, buildQuery, pyJoin, fieldClause]

/-- Claim C4 (amended): when the configured measurements list is empty, the
query construction does not raise anything; it returns a query string whose
measurement filter line contains an empty OR clause (the join of zero
disjuncts, the empty string). -/
theorem build_query_empty_measurements_clause (bucket rangeStr : String)
    (fs : List String) :
    buildQueryE bucket rangeStr [] fs =
      .ok ("from(bucket: \"" ++ bucket ++ "\")\n" ++
        "|> range(" ++ rangeStr ++ ")\n" ++
        "|> filter(fn: (r) => " ++ "" ++ ")\n" ++
        "|> filter(fn: (r) => " ++ pyJoin " or " (fs.map fieldClause) ++ ")\n" ++
        "|> keep(columns: [\"_time\", \"_field\", \"_value\"])" ++
        "|> pivot(rowKey:[\"_time\"], columnKey: [\"_field\"], valueColumn: \"_value\")") := by
  simp [buildQueryE, buildQuery, pyJoin]

/-- Counterexample for C5: for the configured key ATX the claim's
recognition predicate is false (the third character is neither absent nor a
digit), yet the code does not warn, because its regular expression is not
anchored at the end; so warning-if-and-only-if-not-recognized fails. -/
theorem samos_field_warning_cex :
    ¬ ((codeWarns "ATX" = true) ↔ (specRecognized "ATX" = false)) := by
  decide

/-- Claim C5 (amended): the constructor warns on a configured key exactly
once, and it warns if and only if the key's first two characters are not a
SAMOS_FIELDS key or the key does not start with two uppercase ASCII
letters; the unanchored regular expression constrains nothing after the
second character, so a key such as ATX is accepted without warning. -/
theorem samos_field_warning_iff (fields : List (String × String))
    (hnd : (fields.map Prod.fst).Nodup) (k : String)
    (hk : k ∈ fields.map Prod.fst) :
    (initWarnings fields).count k = (if codeWarns k then 1 else 0) ∧
    (codeWarns k = true ↔
      ¬ (samosFieldCodes.contains (k.take 2) = true ∧
          startsWithTwoUpper k = true)) := by
  constructor
  · by_cases hw : codeWarns k
    · rw [if_pos hw]
      have hmem : k ∈ initWarnings fields := List.mem_filter.mpr ⟨hk, hw⟩
      exact List.count_eq_one_of_mem (List.Nodup.filter _ hnd) hmem
    · rw [if_neg hw]
      have hnot : k ∉ initWarnings fields :=
        fun hmem => hw (List.of_mem_filter hmem)
      exact List.count_eq_zero_of_not_mem hnot
  · cases h1 : samosFieldCodes.contains (k.take 2) <;>
      cases h2 : startsWithTwoUpper k
    · simp [codeWarns, h1, h2]
    · simp only [codeWarns, h1, h2]
      simpa using h1
    · simp [codeWarns, h1, h2]
    · simp only [codeWarns, h1, h2]
      simpa using h1

/-- Witness for C5 (amended): a configuration with keys AT and ZZ logs the
warning for ZZ exactly once. -/
theorem samos_field_warning_iff_witness :
    ((([("AT", "Temp"), ("ZZ", "Junk")] :
        List (String × String)).map Prod.fst).Nodup ∧
      "ZZ" ∈ ([("AT", "Temp"), ("ZZ", "Junk")] :
        List (String × String)).map Prod.fst) ∧
    (initWarnings [("AT", "Temp"), ("ZZ", "Junk")]).count "ZZ" = 1 := by
  have h := samos_field_warning_iff [("AT", "Temp"), ("ZZ", "Junk")]
    (by decide) "ZZ" (by decide)
  exact ⟨⟨by decide, by decide⟩, h.1.trans (by decide)⟩

/-- Claim C6: within one run, when a configured source field is absent from
the result header across many data rows, its missing-field warning is
logged exactly once for the whole run, while every row still receives the
NaN substitution token. -/
theorem missing_field_warning_once (cfg : SamosConfig) (header : List String)
    (rows : List (List String)) (k v : String)
    (hkv : (k, v) ∈ cfg.fields) (hmiss : pyIndex header v = none)
    (hrows : rows ≠ []) (hall : ∀ r ∈ rows, r ≠ [])
    (hok : (buildSamosCsv cfg (header :: rows)).err = none) :
    (buildSamosCsv cfg (header :: rows)).warnings.count (valueErrMsg v) = 1 ∧
    (buildSamosCsv cfg (header :: rows)).records.length = rows.length ∧
    ∀ rec ∈ (buildSamosCsv cfg (header :: rows)).records,
      (k ++ ":NaN") ∈ rec := by
  have hok' : (runRows cfg header rows []).err = none := hok
  obtain ⟨hc, hl, hr⟩ :=
    runRows_missing_all cfg header k v hkv hmiss rows [] hall hok'
  refine ⟨?_, hl, hr⟩
  show (runRows cfg header rows []).warnings.count (valueErrMsg v) = 1
  rw [hc, if_neg (List.not_mem_nil _), if_neg hrows]

/-- Witness for C6: five rows all lacking the configured Pressure field
produce five records and exactly one logged warning. -/
theorem missing_field_warning_once_witness :
    (("BP", "Pressure") ∈ cfgEx.fields ∧
      pyIndex headerMiss "Pressure" = none ∧ rowsMiss ≠ [] ∧
      (∀ r ∈ rowsMiss, r ≠ []) ∧
      (buildSamosCsv cfgEx (headerMiss :: rowsMiss)).err = none) ∧
    (buildSamosCsv cfgEx (headerMiss :: rowsMiss)).warnings.count
      (valueErrMsg "Pressure") = 1 ∧
    (buildSamosCsv cfgEx (headerMiss :: rowsMiss)).records.length = 5 := by
  have h := missing_field_warning_once cfgEx headerMiss rowsMiss "BP"
    "Pressure" (by decide) (by decide) (by decide) (by decide) (by decide)
  exact ⟨⟨by decide, by decide, by decide, by decide, by decide⟩,
    h.1, h.2.1.trans (by decide)⟩

/-- Claim C7: a run whose executed query returns zero data rows emits zero
record lines, the driver takes the distinct no-data path, and the process
exits with status 0, distinguished from the fatal retrieval exit status. -/
theorem empty_result_no_output (cfg : SamosConfig) (header : List String) :
    buildSamosCsv cfg [] = ⟨[], [], none⟩ ∧
    buildSamosCsv cfg [header] = ⟨[], [], none⟩ ∧
    emittedLines cfg [header] = [] ∧
    exporterMain (emittedLines cfg [header]) = ExporterOutcome.noDataQuit ∧
    exporterExitCode (exporterMain (emittedLines cfg [header])) = 0 ∧
    exporterExitCode (exporterMain (emittedLines cfg [header])) ≠
      fatalRetrieveExitCode := by
  refine ⟨rfl, rfl, rfl, rfl, rfl, ?_⟩
  simp [emittedLines, buildSamosCsv, runRows, exporterMain, exporterExitCode,
    fatalRetrieveExitCode]

/-- Counterexample for C8: on an input whose tzinfo replacement raises, the
range helper returns normally (Python None, plus a debug log) instead of
failing with any error; no DateNormalizationError exists in the code. -/
theorem build_query_range_invalid_cex :
    buildQueryRangeChecked
        (.invalidTs "TypeError: replace() takes no keyword arguments") =
      .ok (none, some "TypeError: replace() takes no keyword arguments") :=
  rfl

/-- Claim C8 (amended): for every input the range helper cannot interpret,
the exception is caught inside the helper, its message is logged at debug
level, and the helper returns None to its caller; nothing is raised and no
DateNormalizationError exists. -/
theorem build_query_range_invalid_returns_none (m : String) :
    buildQueryRangeChecked (.invalidTs m) = .ok (none, some m) :=
  rfl

/-- Claim C9: every record emitted by the generator begins with the fixed
literal record tag, independent of the row's position in the result
stream; the implementation resolves the numbering question as the
fixed-literal policy. -/
theorem records_start_with_samos_literal (cfg : SamosConfig)
    (stream : List (List String)) :
    (∀ rec ∈ (buildSamosCsv cfg stream).records,
      rec.head? = some "$SAMOS:001") ∧
    (∀ line ∈ emittedLines cfg stream, ∃ r, line = "$SAMOS:001" ++ r) := by
  constructor
  · intro rec hrec
    cases stream with
    | nil => simp [buildSamosCsv] at hrec
    | cons header rows =>
      obtain ⟨tl, htl⟩ := runRows_records_shape cfg header rows [] rec hrec
      rw [htl]
      rfl
  · intro line hline
    cases stream with
    | nil => simp [emittedLines, buildSamosCsv] at hline
    | cons header rows =>
      simp only [emittedLines, List.mem_map] at hline
      obtain ⟨rec, hrec, hjoin⟩ := hline
      obtain ⟨tl, htl⟩ := runRows_records_shape cfg header rows [] rec hrec
      subst htl
      obtain ⟨r, hr⟩ := pyJoin_cons "," "$SAMOS:001" tl
      refine ⟨r ++ "\n", ?_⟩
      rw [← hjoin, hr, str_append_assoc]

/-- Witness for C9: the end-to-end example's record and line both start
with the literal record tag. -/
theorem records_start_with_samos_literal_witness :
    recEx.head? = some "$SAMOS:001" ∧ ∃ r, lineEx = "$SAMOS:001" ++ r :=
  ⟨(records_start_with_samos_literal cfgEx streamEx).1 recEx (by decide),
   (records_start_with_samos_literal cfgEx streamEx).2 lineEx (by decide)⟩

/-- Claim C10: when a configured source field is present in the header at a
position past the end of a data row, the field loop raises an uncaught
IndexError (only the ValueError of the header lookup is caught), so the
whole export stream aborts with no NaN substitution for that row. -/
theorem short_row_index_error (cfg : SamosConfig) (header row : List String)
    (j : Nat) (t : String) (k v : String) (i : Nat)
    (hne : row ≠ []) (ht : pyIndex header "_time" = some j)
    (htv : pyGet row j = some t)
    (hkv : (k, v) ∈ cfg.fields) (hidx : pyIndex header v = some i)
    (hshort : row.length ≤ i) :
    (∀ errors, buildRow cfg header row errors = .error .indexError) ∧
    ∀ rest, buildSamosCsv cfg (header :: row :: rest) =
      ⟨[], [], some .indexError⟩ := by
  have hg : pyGet row i = none := pyGet_none_of_le row i hshort
  have hpfe : ∀ errors,
      processFields header row cfg.fields errors = .error .indexError :=
    fun errors => processFields_index_error header row cfg.fields errors
      ⟨(k, v), hkv, i, hidx, hg⟩
  constructor
  · intro errors
    exact buildRow_eq_error cfg header row errors j t _ hne ht htv (hpfe errors)
  · intro rest
    have hbr := buildRow_eq_error cfg header row [] j t _ hne ht htv (hpfe [])
    show runRows cfg header (row :: rest) [] = _
    simp [runRows, hbr]

/-- Witness for C10: a one-column row under a two-column header whose
configured field sits at position 1 aborts the run with the IndexError. -/
theorem short_row_index_error_witness :
    (rowShort ≠ [] ∧ pyIndex headerMiss "_time" = some 0 ∧
      pyGet rowShort 0 = some "2003-09-07T00:00:11Z" ∧
      ("AT", "Temp") ∈ cfgShort.fields ∧
      pyIndex headerMiss "Temp" = some 1 ∧ rowShort.length ≤ 1) ∧
    buildRow cfgShort headerMiss rowShort [] = .error .indexError ∧
    buildSamosCsv cfgShort (headerMiss :: rowShort :: []) =
      ⟨[], [], some .indexError⟩ := by
  have h := short_row_index_error cfgShort headerMiss rowShort 0
    "2003-09-07T00:00:11Z" "AT" "Temp" 1 (by decide) (by decide) (by decide)
    (by decide) (by decide) (by decide)
  exact ⟨⟨by decide, by decide, by decide, by decide, by decide, by decide⟩,
    h.1 [], h.2 []⟩
